import Mathlib

/-!
Verification of the instrument capture protocol engine of the
Oscilloscope_Screen_Capture repository (file lecroy_capture.py).

The Python source is shallowly embedded: byte strings become List Nat
(each element one byte value), text becomes String, fallible calls become
Option / Except, and the process-global sequence counter becomes explicit
state passing.  Each definition below is translated from the named Python
function; doc comments cite the source function.
-/

namespace ScopeCapture

/-! ## VICP frame codec (lecroy_capture.py, _vicp_* functions)

The wire header is struct format ">BBBBI": op(1) ver(1) seq(1) pad(1)
len(4, big-endian).  _VICP_HLEN = 8. -/

/-- Big-endian 32-bit value of four header bytes, as produced by
struct.unpack of the ">BBBBI" length field. -/
def beU32 (b3 b2 b1 b0 : Nat) : Nat :=
  ((b3 * 256 + b2) * 256 + b1) * 256 + b0

/-- The four big-endian bytes of a 32-bit length, as produced by
struct.pack of the ">BBBBI" length field. -/
def u32be (n : Nat) : List Nat :=
  [n / 16777216 % 256, n / 65536 % 256, n / 256 % 256, n % 256]

/-- DATA bit of the op byte: models the Python test bool(op & 0x80).
For a byte value, op / 128 % 2 is exactly bit 7. -/
def dataFlag (op : Nat) : Bool := op / 128 % 2 == 1

/-- EOI bit of the op byte: models the Python test bool(op & 0x01). -/
def eoiFlag (op : Nat) : Bool := op % 2 == 1

/-- One step of the _vicp_recv receive loop, recursing on a fuel bound.
The incoming socket stream is modelled as the finite list of bytes the
remote delivers before the connection closes or the per-read timeout
elapses; recv_exact raising (remote close, timeout, short read) is
modelled by the stream running out of bytes, at which point the bytes
accumulated so far are returned, exactly as the except-handlers in
_vicp_recv do.  Each loop iteration consumes at least 8 bytes, so fuel
equal to the stream length always suffices. -/
def vicpRecvAux : Nat → List Nat → List Nat
  | fuel + 1, b0 :: _b1 :: _b2 :: _b3 :: b4 :: b5 :: b6 :: b7 :: rest =>
      let length := beU32 b4 b5 b6 b7
      if length ≤ rest.length then
        let contrib := if dataFlag b0 then rest.take length else []
        if eoiFlag b0 then contrib
        else contrib ++ vicpRecvAux fuel (rest.drop length)
      else []
  | _, _ => []

/-- _vicp_recv: read frames until the EOI flag is seen or the stream
ends; only DATA-flagged payloads are accumulated; a frame whose payload
cannot be read completely contributes nothing (recv_exact raises and the
handler returns the accumulated buffer). -/
def vicp_recv (s : List Nat) : List Nat := vicpRecvAux s.length s

/-- A VICP frame as the remote would send it (header fields plus payload). -/
structure VicpFrame where
  op : Nat
  ver : Nat
  seq : Nat
  pad : Nat
  payload : List Nat

/-- Well-formed frame: header fields are single bytes and the payload
length fits the 4-byte length field. -/
def frameWF (f : VicpFrame) : Prop :=
  f.op < 256 ∧ f.ver < 256 ∧ f.seq < 256 ∧ f.pad < 256 ∧
    f.payload.length < 4294967296

instance (f : VicpFrame) : Decidable (frameWF f) := by
  unfold frameWF; infer_instance

/-- The bytes of one frame on the wire: 8-byte header then payload. -/
def frameBytes (f : VicpFrame) : List Nat :=
  f.op :: f.ver :: f.seq :: f.pad :: (u32be f.payload.length ++ f.payload)

/-- The byte stream of a sequence of frames delivered in order. -/
def streamBytes (fs : List VicpFrame) : List Nat :=
  (fs.map frameBytes).flatten

/-- What one frame contributes to the image buffer: its payload when the
DATA flag is set, nothing otherwise. -/
def frameContrib (f : VicpFrame) : List Nat :=
  if dataFlag f.op then f.payload else []

/-- Concatenation, in arrival order, of the payloads of DATA-flagged frames. -/
def dataConcat (fs : List VicpFrame) : List Nat :=
  (fs.map frameContrib).flatten

/-! ### Codec lemmas -/

lemma beU32_u32be (n : Nat) (h : n < 4294967296) :
    beU32 (n / 16777216 % 256) (n / 65536 % 256) (n / 256 % 256) (n % 256) = n := by
  unfold beU32
  omega

lemma vicpRecvAux_short (fuel : Nat) (s : List Nat) (h : s.length < 8) :
    vicpRecvAux fuel s = [] := by
  cases fuel with
  | zero => rfl
  | succ f =>
      rcases s with _ | ⟨b0, _ | ⟨b1, _ | ⟨b2, _ | ⟨b3, _ | ⟨b4, _ | ⟨b5, _ | ⟨b6, _ | ⟨b7, rest⟩⟩⟩⟩⟩⟩⟩⟩
      any_goals rfl
      simp only [List.length_cons] at h
      omega

lemma vicpRecvAux_fuelFree (f1 f2 : Nat) (s : List Nat)
    (h1 : s.length ≤ f1) (h2 : s.length ≤ f2) :
    vicpRecvAux f1 s = vicpRecvAux f2 s := by
  induction f1 generalizing f2 s with
  | zero =>
      have hs : s = [] := List.length_eq_zero.mp (Nat.le_zero.mp h1)
      subst hs
      cases f2 <;> rfl
  | succ f1 ih =>
      rcases s with _ | ⟨b0, _ | ⟨b1, _ | ⟨b2, _ | ⟨b3, _ | ⟨b4, _ | ⟨b5, _ | ⟨b6, _ | ⟨b7, rest⟩⟩⟩⟩⟩⟩⟩⟩
      on_goal 9 =>
        cases f2 with
        | zero => simp at h2
        | succ f2 =>
            simp only [vicpRecvAux]
            simp only [List.length_cons] at h1 h2
            split
            · rw [ih f2 (rest.drop (beU32 b4 b5 b6 b7))
                (by simp only [List.length_drop]; omega)
                (by simp only [List.length_drop]; omega)]
            · rfl
      all_goals
        rw [vicpRecvAux_short _ _ (by simp only [List.length_cons, List.length_nil]; omega),
          vicpRecvAux_short _ _ (by simp only [List.length_cons, List.length_nil]; omega)]

/-- Decoding one well-formed frame at the head of the stream: its payload
contributes exactly when the DATA flag is set, and the loop continues
with the remaining bytes unless the EOI flag is set. -/
lemma vicp_recv_frame_cons (f : VicpFrame) (rest : List Nat)
    (hP : f.payload.length < 4294967296) :
    vicp_recv (frameBytes f ++ rest) =
      if eoiFlag f.op then frameContrib f
      else frameContrib f ++ vicp_recv rest := by
  have hshape : frameBytes f ++ rest =
      f.op :: f.ver :: f.seq :: f.pad ::
        (f.payload.length / 16777216 % 256) :: (f.payload.length / 65536 % 256) ::
        (f.payload.length / 256 % 256) :: (f.payload.length % 256) ::
        (f.payload ++ rest) := by
    simp [frameBytes, u32be]
  rw [vicp_recv, hshape]
  have hlen : (f.op :: f.ver :: f.seq :: f.pad ::
      (f.payload.length / 16777216 % 256) :: (f.payload.length / 65536 % 256) ::
      (f.payload.length / 256 % 256) :: (f.payload.length % 256) ::
      (f.payload ++ rest)).length = 8 + f.payload.length + rest.length := by
    simp; omega
  rw [hlen]
  have h8 : 8 + f.payload.length + rest.length = (7 + f.payload.length + rest.length) + 1 := by
    omega
  rw [h8]
  simp only [vicpRecvAux]
  rw [beU32_u32be _ hP]
  have hle : f.payload.length ≤ (f.payload ++ rest).length := by
    simp
  rw [if_pos hle]
  have htake : (f.payload ++ rest).take f.payload.length = f.payload :=
    List.take_left _ _
  have hdrop : (f.payload ++ rest).drop f.payload.length = rest :=
    List.drop_left _ _
  rw [htake, hdrop]
  by_cases he : eoiFlag f.op
  · rw [if_pos he, if_pos he]
    rfl
  · rw [if_neg he, if_neg he]
    rw [vicpRecvAux_fuelFree (7 + f.payload.length + rest.length) rest.length rest
      (by omega) (by omega)]
    rfl

/-- A stream of complete frames, none carrying EOI, decodes to the
concatenation of the DATA-flagged payloads (the stream then ends and the
accumulated buffer is returned). -/
lemma vicp_recv_no_eoi (fs : List VicpFrame)
    (hwf : ∀ g ∈ fs, frameWF g)
    (hno : ∀ g ∈ fs, eoiFlag g.op = false) :
    vicp_recv (streamBytes fs) = dataConcat fs := by
  induction fs with
  | nil => rfl
  | cons g t ih =>
      have hg : frameWF g := hwf g (List.mem_cons_self g t)
      have hshape : streamBytes (g :: t) = frameBytes g ++ streamBytes t := by
        simp [streamBytes]
      rw [hshape, vicp_recv_frame_cons g _ hg.2.2.2.2]
      rw [if_neg (by simp [hno g (List.mem_cons_self g t)])]
      rw [ih (fun x hx => hwf x (List.mem_cons_of_mem g hx))
        (fun x hx => hno x (List.mem_cons_of_mem g hx))]
      simp [dataConcat]

/-- A stream of complete non-EOI frames followed by one EOI-flagged
frame and arbitrary trailing bytes decodes to the concatenation of the
DATA-flagged payloads; the trailing bytes are never read. -/
lemma vicp_recv_eoi_last (fs : List VicpFrame) (f : VicpFrame) (trailing : List Nat)
    (hwf : ∀ g ∈ fs ++ [f], frameWF g)
    (hno : ∀ g ∈ fs, eoiFlag g.op = false)
    (heoi : eoiFlag f.op = true) :
    vicp_recv (streamBytes (fs ++ [f]) ++ trailing) = dataConcat (fs ++ [f]) := by
  induction fs with
  | nil =>
      have hf : frameWF f := hwf f (by simp)
      have hshape : streamBytes ([] ++ [f]) ++ trailing = frameBytes f ++ trailing := by
        simp [streamBytes]
      rw [hshape, vicp_recv_frame_cons f _ hf.2.2.2.2, if_pos heoi]
      simp [dataConcat]
  | cons g t ih =>
      have hg : frameWF g := hwf g (by simp)
      have hshape : streamBytes ((g :: t) ++ [f]) ++ trailing =
          frameBytes g ++ (streamBytes (t ++ [f]) ++ trailing) := by
        simp [streamBytes]
      rw [hshape, vicp_recv_frame_cons g _ hg.2.2.2.2]
      rw [if_neg (by simp [hno g (List.mem_cons_self g t)])]
      rw [ih (fun x hx => hwf x (by simp at hx ⊢; tauto))
        (fun x hx => hno x (List.mem_cons_of_mem g hx)) ]
      simp [dataConcat]

/-! ### Claim C1 -/

/-- C1: For every finite sequence of well-formed VICP frames delivered in
order and ending with a frame whose EOI flag is set (no earlier frame
carrying EOI), vicp_recv returns exactly the concatenation, in arrival
order, of the payloads of the DATA-flagged frames, excluding all frames
without the DATA flag; the loop stops at the first EOI-flagged frame
(any trailing bytes are never read), and that frame's payload is
included if and only if its DATA flag is set. -/
theorem vicp_recv_eoi_stream_spec (fs : List VicpFrame) (f : VicpFrame)
    (trailing : List Nat)
    (hwf : ∀ g ∈ fs ++ [f], frameWF g)
    (hno : ∀ g ∈ fs, eoiFlag g.op = false)
    (heoi : eoiFlag f.op = true) :
    vicp_recv (streamBytes (fs ++ [f]) ++ trailing) =
      dataConcat fs ++ (if dataFlag f.op then f.payload else []) := by
  rw [vicp_recv_eoi_last fs f trailing hwf hno heoi]
  simp [dataConcat, frameContrib]

/-- Witness for C1: two frames (one DATA frame carrying [1,2], one
SRQ-style control frame carrying [9]) followed by a DATA+EOI frame
carrying [3], with junk trailing bytes, decode to [1,2,3]. -/
theorem vicp_recv_eoi_stream_spec_witness :
    vicp_recv (streamBytes
        ([⟨0x80, 1, 1, 0, [1, 2]⟩, ⟨0x08, 1, 2, 0, [9]⟩] ++ [⟨0x81, 1, 3, 0, [3]⟩])
        ++ [5, 5]) =
      dataConcat [⟨0x80, 1, 1, 0, [1, 2]⟩, ⟨0x08, 1, 2, 0, [9]⟩] ++
        (if dataFlag 0x81 then [3] else []) := by
  exact vicp_recv_eoi_stream_spec
    [⟨0x80, 1, 1, 0, [1, 2]⟩, ⟨0x08, 1, 2, 0, [9]⟩] ⟨0x81, 1, 3, 0, [3]⟩ [5, 5]
    (by decide) (by decide) (by decide)

/-! ### Claim C2 -/

/-- Set the EOI bit on the op byte (leaving every other bit unchanged:
for an even op byte, adding 1 sets exactly bit 0). -/
def setEoi (f : VicpFrame) : VicpFrame :=
  { f with op := if eoiFlag f.op then f.op else f.op + 1 }

/-- Set the EOI bit on the last frame of a sequence. -/
def setEoiLast : List VicpFrame → List VicpFrame
  | [] => []
  | [f] => [setEoi f]
  | f :: g :: t => f :: setEoiLast (g :: t)

lemma dataFlag_setEoi (f : VicpFrame) : dataFlag (setEoi f).op = dataFlag f.op := by
  unfold setEoi
  by_cases he : eoiFlag f.op
  · rw [if_pos he]
  · rw [if_neg he]
    unfold eoiFlag at he
    unfold dataFlag
    simp only [beq_iff_eq] at he
    have h2 : (f.op + 1) / 128 % 2 = f.op / 128 % 2 := by omega
    show ((f.op + 1) / 128 % 2 == 1) = (f.op / 128 % 2 == 1)
    rw [h2]

lemma eoiFlag_setEoi (f : VicpFrame) : eoiFlag (setEoi f).op = true := by
  unfold setEoi
  by_cases he : eoiFlag f.op
  · rwa [if_pos he]
  · rw [if_neg he]
    unfold eoiFlag at he ⊢
    simp only [beq_iff_eq] at he ⊢
    omega

lemma frameWF_setEoi (f : VicpFrame) (h : frameWF f) : frameWF (setEoi f) := by
  unfold frameWF setEoi at *
  by_cases he : eoiFlag f.op
  · rw [if_pos he]
    exact h
  · rw [if_neg he]
    unfold eoiFlag at he
    simp only [beq_iff_eq] at he
    obtain ⟨h1, h2, h3, h4, h5⟩ := h
    exact ⟨by show f.op + 1 < 256; omega, h2, h3, h4, h5⟩

lemma frameContrib_setEoi (f : VicpFrame) : frameContrib (setEoi f) = frameContrib f := by
  unfold frameContrib
  rw [dataFlag_setEoi]
  rfl

lemma dataConcat_setEoiLast (fs : List VicpFrame) :
    dataConcat (setEoiLast fs) = dataConcat fs := by
  induction fs with
  | nil => rfl
  | cons g t ih =>
      cases t with
      | nil => simp [setEoiLast, dataConcat, frameContrib_setEoi]
      | cons g2 t2 =>
          simp only [setEoiLast, dataConcat, List.map_cons, List.flatten_cons] at ih ⊢
          rw [ih]

lemma setEoiLast_wf (fs : List VicpFrame) (hwf : ∀ g ∈ fs, frameWF g) :
    ∀ g ∈ setEoiLast fs, frameWF g := by
  induction fs with
  | nil => simp [setEoiLast]
  | cons g t ih =>
      cases t with
      | nil =>
          simp only [setEoiLast, List.mem_singleton]
          intro x hx
          subst hx
          exact frameWF_setEoi g (hwf g (by simp))
      | cons g2 t2 =>
          simp only [setEoiLast, List.mem_cons]
          rintro x (rfl | hx)
          · exact hwf x (by simp)
          · exact ih (fun y hy => hwf y (List.mem_cons_of_mem g hy)) x hx

/-- Decoding a non-empty sequence of non-EOI frames whose last frame has
been given the EOI flag yields the concatenation of DATA payloads. -/
lemma vicp_recv_setEoiLast (fs : List VicpFrame)
    (hne : fs ≠ [])
    (hwf : ∀ g ∈ fs, frameWF g)
    (hno : ∀ g ∈ fs, eoiFlag g.op = false) :
    vicp_recv (streamBytes (setEoiLast fs)) = dataConcat fs := by
  induction fs with
  | nil => exact absurd rfl hne
  | cons g t ih =>
      cases t with
      | nil =>
          have hg : frameWF g := hwf g (by simp)
          have hshape : streamBytes (setEoiLast [g]) = frameBytes (setEoi g) ++ [] := by
            simp [setEoiLast, streamBytes]
          rw [hshape, vicp_recv_frame_cons _ _ (frameWF_setEoi g hg).2.2.2.2]
          rw [if_pos (eoiFlag_setEoi g), frameContrib_setEoi]
          simp [dataConcat]
      | cons g2 t2 =>
          have hg : frameWF g := hwf g (by simp)
          have hshape : streamBytes (setEoiLast (g :: g2 :: t2)) =
              frameBytes g ++ streamBytes (setEoiLast (g2 :: t2)) := by
            simp [setEoiLast, streamBytes]
          rw [hshape, vicp_recv_frame_cons g _ hg.2.2.2.2]
          rw [if_neg (by simp [hno g (by simp)])]
          rw [ih (by simp) (fun y hy => hwf y (List.mem_cons_of_mem g hy))
            (fun y hy => hno y (List.mem_cons_of_mem g hy))]
          simp [dataConcat]

/-- C2: If the byte stream ends (remote close or per-read timeout)
before any EOI-flagged frame is seen, vicp_recv returns the payloads
accumulated so far as a normal result: a stream shorter than one 8-byte
header yields the empty byte string, and a stream of N >= 1 complete
frames without EOI yields the same concatenation of DATA payloads as if
the EOI flag had been set on the last frame.  The function is total, so
no error is ever raised to the caller. -/
theorem vicp_recv_early_close_spec :
    (∀ s : List Nat, s.length < 8 → vicp_recv s = []) ∧
    (∀ fs : List VicpFrame, fs ≠ [] →
      (∀ g ∈ fs, frameWF g) →
      (∀ g ∈ fs, eoiFlag g.op = false) →
      vicp_recv (streamBytes fs) = dataConcat fs ∧
      vicp_recv (streamBytes fs) = vicp_recv (streamBytes (setEoiLast fs))) := by
  constructor
  · intro s hs
    exact vicpRecvAux_short _ _ hs
  · intro fs hne hwf hno
    refine ⟨vicp_recv_no_eoi fs hwf hno, ?_⟩
    rw [vicp_recv_no_eoi fs hwf hno, vicp_recv_setEoiLast fs hne hwf hno]

/-- Witness for C2: a 3-byte stream yields [], and a single complete
DATA frame with no EOI yields its payload, identical to the EOI-flagged
variant of the same stream. -/
theorem vicp_recv_early_close_spec_witness :
    vicp_recv [1, 2, 3] = [] ∧
    (vicp_recv (streamBytes [⟨0x80, 1, 1, 0, [7, 8]⟩]) = dataConcat [⟨0x80, 1, 1, 0, [7, 8]⟩] ∧
      vicp_recv (streamBytes [⟨0x80, 1, 1, 0, [7, 8]⟩]) =
        vicp_recv (streamBytes (setEoiLast [⟨0x80, 1, 1, 0, [7, 8]⟩]))) :=
  ⟨vicp_recv_early_close_spec.1 [1, 2, 3] (by decide),
    vicp_recv_early_close_spec.2 [⟨0x80, 1, 1, 0, [7, 8]⟩] (by simp)
      (by decide) (by decide)⟩

/-! ## Vendor detection (lecroy_capture.py, detect_vendor) -/

/-- One character of Python str.upper, for the ASCII range (identity
strings and VISA resource strings are ASCII; on that range Python's
upper maps a-z to A-Z and leaves everything else unchanged). -/
def pyUpperChar (c : Char) : Char :=
  if 'a' ≤ c ∧ c ≤ 'z' then Char.ofNat (c.toNat - 32) else c

/-- Python str.upper on an ASCII string. -/
def pyUpper (s : String) : String := String.mk (s.data.map pyUpperChar)

/-- Does the character list start with the given needle. -/
def beginsWith : List Char → List Char → Bool
  | [], _ => true
  | _ :: _, [] => false
  | a :: as, b :: bs => a == b && beginsWith as bs

/-- Substring occurrence on character lists. -/
def hasSub (needle : List Char) : List Char → Bool
  | [] => needle.isEmpty
  | b :: bs => beginsWith needle (b :: bs) || hasSub needle bs

/-- The Python membership test (needle in hay) on strings. -/
def inStr (needle hay : String) : Bool := hasSub needle.data hay.data

/-- detect_vendor: case-insensitive substring match of the raw *IDN?
response against known manufacturer names, returning a short vendor tag
(lecroy_capture.py lines 235-253). -/
def detect_vendor (idn : String) : String :=
  let u := pyUpper idn
  if inStr "LECROY" u || inStr "TELEDYNE" u then "LECROY"
  else if inStr "TEKTRONIX" u || inStr "TEK" u then "TEKTRONIX"
  else if inStr "KEYSIGHT" u || inStr "AGILENT" u || inStr "HEWLETT" u then "KEYSIGHT"
  else if inStr "RIGOL" u then "RIGOL"
  else if inStr "SIGLENT" u then "SIGLENT"
  else if inStr "ROHDE" u || inStr "ROHDE&SCHWARZ" u || inStr "R&S" u then "RNS"
  else "UNKNOWN"

/-- The substrings detect_vendor matches against. -/
def knownNeedles : List String :=
  ["LECROY", "TELEDYNE", "TEKTRONIX", "TEK", "KEYSIGHT", "AGILENT", "HEWLETT",
   "RIGOL", "SIGLENT", "ROHDE", "ROHDE&SCHWARZ", "R&S"]

/-! ### Claim C9 -/

/-- Counterexample to C9: the code's vendor tag set is not the claimed
five-element set {LECROY, TEKTRONIX, KEYSIGHT, RIGOL_SIGLENT, UNKNOWN}.
A Rohde & Schwarz identity string produces the tag "RNS", which is none
of the claimed tags; moreover Rigol and Siglent are distinct tags
"RIGOL" and "SIGLENT", not one merged tag. -/
theorem detect_vendor_outside_claimed_set :
    detect_vendor "Rohde&Schwarz,RTB2004,1234,01.100" = "RNS" ∧
    detect_vendor "SIGLENT,SDS1104,5678,1.2" = "SIGLENT" ∧
    ("RNS" ≠ "LECROY" ∧ "RNS" ≠ "TEKTRONIX" ∧ "RNS" ≠ "KEYSIGHT" ∧
      "RNS" ≠ "RIGOL_SIGLENT" ∧ "RNS" ≠ "UNKNOWN") := by
  decide

/-- C9 (amended): for every identity string the vendor tag is one of the
seven code tags LECROY, TEKTRONIX, KEYSIGHT, RIGOL, SIGLENT, RNS,
UNKNOWN; and every identity string containing none of the known vendor
substrings (case-insensitively) maps to UNKNOWN. -/
theorem detect_vendor_tag_spec (idn : String) :
    detect_vendor idn ∈
      ["LECROY", "TEKTRONIX", "KEYSIGHT", "RIGOL", "SIGLENT", "RNS", "UNKNOWN"] ∧
    ((∀ needle ∈ knownNeedles, inStr needle (pyUpper idn) = false) →
      detect_vendor idn = "UNKNOWN") := by
  constructor
  · unfold detect_vendor
    dsimp only
    split
    · simp
    split
    · simp
    split
    · simp
    split
    · simp
    split
    · simp
    split
    · simp
    · simp
  · intro h
    have h1 := h "LECROY" (by simp [knownNeedles])
    have h2 := h "TELEDYNE" (by simp [knownNeedles])
    have h3 := h "TEKTRONIX" (by simp [knownNeedles])
    have h4 := h "TEK" (by simp [knownNeedles])
    have h5 := h "KEYSIGHT" (by simp [knownNeedles])
    have h6 := h "AGILENT" (by simp [knownNeedles])
    have h7 := h "HEWLETT" (by simp [knownNeedles])
    have h8 := h "RIGOL" (by simp [knownNeedles])
    have h9 := h "SIGLENT" (by simp [knownNeedles])
    have h10 := h "ROHDE" (by simp [knownNeedles])
    have h11 := h "ROHDE&SCHWARZ" (by simp [knownNeedles])
    have h12 := h "R&S" (by simp [knownNeedles])
    simp [detect_vendor, h1, h2, h3, h4, h5, h6, h7, h8, h9, h10, h11, h12]

/-- Witness for C9 (amended): an identity string matching no known
vendor substring maps to UNKNOWN. -/
theorem detect_vendor_tag_spec_witness :
    detect_vendor "ACME,Model1,SN1,FW1" = "UNKNOWN" :=
  (detect_vendor_tag_spec "ACME,Model1,SN1,FW1").2 (by decide)

/-! ## Frame encoder (lecroy_capture.py, _vicp_next_seq and _vicp_send) -/

/-- The op byte sent by _vicp_send: DATA | REMOTE | EOI. -/
def vicpOpByte : Nat := 0x80 ||| 0x40 ||| 0x01

/-- _vicp_next_seq: advance the sequence counter.  The Python global
_VICP_SEQ cell is modelled by passing the previous counter value. -/
def vicp_next_seq (state : Nat) : Nat := state % 255 + 1

/-- cmd.encode("ascii"): one byte per character (commands are ASCII). -/
def asciiEncode (cmd : String) : List Nat := cmd.data.map Char.toNat

/-- _vicp_send: build the 8-byte header (op, version 1, next sequence
number, pad 0, 4-byte big-endian payload length) followed by the ASCII
payload.  Returns the wire bytes and the updated sequence counter. -/
def vicp_send (state : Nat) (cmd : String) : List Nat × Nat :=
  let payload := asciiEncode cmd
  (vicpOpByte :: 1 :: vicp_next_seq state :: 0 :: (u32be payload.length ++ payload),
    vicp_next_seq state)

/-! ### Claim C6 -/

/-- C6: for every command string and every prior counter state,
_vicp_send produces exactly an 8-byte header - an op byte with DATA,
REMOTE and EOI set, a version byte equal to 1, the next sequence number,
a zero pad byte, and the payload length as a 4-byte big-endian integer
equal to the length of the ASCII-encoded command - followed by the
ASCII-encoded command; the sequence number is always in [1,255], never
0, and wraps monotonically (increments by 1 up to 255, then back to 1). -/
theorem vicp_send_spec (state : Nat) (cmd : String)
    (hlen : (asciiEncode cmd).length < 4294967296) :
    (vicp_send state cmd).1 =
      [vicpOpByte, 1, (vicp_send state cmd).2, 0] ++
        u32be (asciiEncode cmd).length ++ asciiEncode cmd ∧
    (u32be (asciiEncode cmd).length).length = 4 ∧
    (u32be (asciiEncode cmd).length).foldl (fun a b => a * 256 + b) 0 =
      (asciiEncode cmd).length ∧
    dataFlag vicpOpByte = true ∧
    vicpOpByte / 64 % 2 = 1 ∧
    eoiFlag vicpOpByte = true ∧
    vicpOpByte = 193 ∧
    1 ≤ (vicp_send state cmd).2 ∧
    (vicp_send state cmd).2 ≤ 255 ∧
    (vicp_send state cmd).2 = state % 255 + 1 ∧
    (1 ≤ state → state ≤ 254 → (vicp_send state cmd).2 = state + 1) ∧
    (state = 255 → (vicp_send state cmd).2 = 1) := by
  refine ⟨by simp [vicp_send], by simp [u32be], ?_, by decide, by decide, by decide, by decide,
    ?_, ?_, rfl, ?_, ?_⟩
  · simp only [u32be, List.foldl_cons, List.foldl_nil]
    omega
  · simp only [vicp_send, vicp_next_seq]
    omega
  · simp only [vicp_send, vicp_next_seq]
    omega
  · intro h1 h2
    simp only [vicp_send, vicp_next_seq]
    omega
  · intro h1
    simp only [vicp_send, vicp_next_seq]
    omega

/-- Witness for C6: encoding the *IDN? query from a fresh counter. -/
theorem vicp_send_spec_witness :
    (vicp_send 0 "*IDN?").1 =
      [vicpOpByte, 1, (vicp_send 0 "*IDN?").2, 0] ++
        u32be (asciiEncode "*IDN?").length ++ asciiEncode "*IDN?" ∧
    (u32be (asciiEncode "*IDN?").length).length = 4 ∧
    (u32be (asciiEncode "*IDN?").length).foldl (fun a b => a * 256 + b) 0 =
      (asciiEncode "*IDN?").length ∧
    dataFlag vicpOpByte = true ∧
    vicpOpByte / 64 % 2 = 1 ∧
    eoiFlag vicpOpByte = true ∧
    vicpOpByte = 193 ∧
    1 ≤ (vicp_send 0 "*IDN?").2 ∧
    (vicp_send 0 "*IDN?").2 ≤ 255 ∧
    (vicp_send 0 "*IDN?").2 = 0 % 255 + 1 ∧
    (1 ≤ 0 → 0 ≤ 254 → (vicp_send 0 "*IDN?").2 = 0 + 1) ∧
    (0 = 255 → (vicp_send 0 "*IDN?").2 = 1) :=
  vicp_send_spec 0 "*IDN?" (by decide)

/-! ## Image validation (the non-empty, at-least-100-bytes check)

scpi_capture line 312 and vicp_capture line 518 both run the test
"if not image_data or len(image_data) < 100" on the received buffer;
the buffer may be absent (None from a failed dump). -/

/-- The validation test: a present buffer that is non-empty and not
shorter than 100 bytes passes. -/
def image_valid : Option (List Nat) → Bool
  | none => false
  | some d => !(d.isEmpty || decide (d.length < 100))

/-! ### Claim C4 -/

/-- Counterexample to C4: a buffer of exactly 100 bytes is accepted by
the code (len < 100 is the failure test), although its length does not
exceed 100; so "accepted iff length exceeds 100 bytes" is false. -/
theorem image_valid_at_exactly_100 :
    image_valid (some (List.replicate 100 0)) = true ∧
    ¬ (100 < (List.replicate 100 (0 : Nat)).length) := by
  decide

/-- C4 (amended): on both the structured-session path and the raw-VICP
path a received buffer is accepted if and only if it is present and its
byte length is at least 100; absent, empty or shorter buffers are
validation failures (a total function - never a crash). -/
theorem image_valid_iff (o : Option (List Nat)) :
    image_valid o = true ↔ ∃ d, o = some d ∧ 100 ≤ d.length := by
  cases o with
  | none => simp [image_valid]
  | some d =>
      constructor
      · intro h
        refine ⟨d, rfl, ?_⟩
        by_contra hlt
        push_neg at hlt
        simp only [image_valid] at h
        rw [decide_eq_true hlt] at h
        simp at h
      · rintro ⟨d2, hd, hlen⟩
        rw [hd]
        simp only [image_valid]
        have h1 : d2.isEmpty = false := by
          cases d2
          · simp at hlen
          · rfl
        rw [h1, decide_eq_false (by omega : ¬ d2.length < 100)]
        rfl

/-! ## Vendor dispatcher (lecroy_capture.py, _screen_dump)

The four _dump_* helpers perform instrument I/O; each is abstracted as
an environment function from the method to the bytes it returned (ok,
with the empty list also covering a None result, since the Python test
"if data" treats both alike) or to a raised exception (error). -/

/-- The four capture methods _screen_dump can run. -/
inductive DumpMethod
  | keysight
  | rigol
  | lecroy
  | tektronix
deriving DecidableEq

/-- The fixed priority order of the unknown-vendor loop (line 374):
(_dump_keysight, _dump_rigol, _dump_lecroy, _dump_tektronix). -/
def unknownOrder : List DumpMethod :=
  [DumpMethod.keysight, DumpMethod.rigol, DumpMethod.lecroy, DumpMethod.tektronix]

/-- The unknown-vendor loop body: run each method in order; a raised
exception continues with the next method; a result is returned only if
data is truthy and len(data) > 100; otherwise continue.  Returns none
when every method fails. -/
def tryMethods (run : DumpMethod → Except Unit (List Nat)) :
    List DumpMethod → Option (List Nat)
  | [] => none
  | m :: ms =>
      match run m with
      | Except.error _ => tryMethods run ms
      | Except.ok d =>
          if !d.isEmpty && decide (100 < d.length) then some d
          else tryMethods run ms

/-- _screen_dump: dispatch on the vendor tag; for a known vendor run its
method (exceptions propagate to the caller); otherwise run the
unknown-vendor loop, which never raises. -/
def screen_dump (vendor : String) (run : DumpMethod → Except Unit (List Nat)) :
    Except Unit (Option (List Nat)) :=
  if vendor == "LECROY" then (run DumpMethod.lecroy).map some
  else if vendor == "TEKTRONIX" then (run DumpMethod.tektronix).map some
  else if vendor == "KEYSIGHT" || vendor == "AGILENT" then (run DumpMethod.keysight).map some
  else if vendor == "RIGOL" || vendor == "SIGLENT" then (run DumpMethod.rigol).map some
  else Except.ok (tryMethods run unknownOrder)

/-! ### Claim C5 -/

/-- Counterexample to C5: the unknown-vendor loop accepts only results
whose byte length is strictly greater than 100 (len(data) > 100, line
377), not at least 100.  With the KEYSIGHT method returning exactly 100
bytes and every other method raising, the dispatcher returns no data,
although the claim says the 100-byte result is returned. -/
theorem screen_dump_unknown_at_100 :
    screen_dump "UNKNOWN" (fun m =>
      match m with
      | DumpMethod.keysight => Except.ok (List.replicate 100 7)
      | _ => Except.error ()) = Except.ok none ∧
    (List.replicate 100 (7 : Nat)).length = 100 := by
  constructor
  · rfl
  · simp

/-- C5 (amended): when the identity query fails or returns an empty
string the vendor tag resolves to UNKNOWN ("(no IDN response)" is the
Python fallback identity on a failed query), and the UNKNOWN dispatch
runs the KEYSIGHT, RIGOL, LECROY, TEKTRONIX methods in exactly that
fixed order, returning (without raising) the result of the first method
whose byte length exceeds 100 bytes, and no data only if every method
raises or falls at or below 100 bytes. -/
theorem screen_dump_unknown_spec (run : DumpMethod → Except Unit (List Nat)) :
    detect_vendor "" = "UNKNOWN" ∧
    detect_vendor "(no IDN response)" = "UNKNOWN" ∧
    screen_dump "UNKNOWN" run =
      Except.ok (unknownOrder.findSome? (fun m =>
        match run m with
        | Except.ok d => if 100 < d.length then some d else none
        | Except.error _ => none)) := by
  refine ⟨by decide, by decide, ?_⟩
  have htry : ∀ ms : List DumpMethod, tryMethods run ms =
      ms.findSome? (fun m =>
        match run m with
        | Except.ok d => if 100 < d.length then some d else none
        | Except.error _ => none) := by
    intro ms
    induction ms with
    | nil => rfl
    | cons m ms ih =>
        cases hr : run m with
        | error e => simp [tryMethods, List.findSome?_cons, hr, ih]
        | ok d =>
            by_cases hd : 100 < d.length
            · have hne : d.isEmpty = false := by
                cases d
                · simp at hd
                · rfl
              simp [tryMethods, List.findSome?_cons, hr, hd, hne]
            · simp [tryMethods, List.findSome?_cons, hr, hd, ih]
  have g1 : ("UNKNOWN" == "LECROY") = false := by decide
  have g2 : ("UNKNOWN" == "TEKTRONIX") = false := by decide
  have g3 : ("UNKNOWN" == "KEYSIGHT") = false := by decide
  have g4 : ("UNKNOWN" == "AGILENT") = false := by decide
  have g5 : ("UNKNOWN" == "RIGOL") = false := by decide
  have g6 : ("UNKNOWN" == "SIGLENT") = false := by decide
  unfold screen_dump
  rw [g1, g2, g3, g4, g5, g6]
  simp only [Bool.or_self, Bool.or_false, if_false, Bool.false_eq_true, ite_false]
  rw [htry]

/-! ## Connection resolver (lecroy_capture.py, build_ethernet_resources) -/

/-- build_ethernet_resources: the ordered VISA resource candidates for a
network target.  The function is pure, so repeated calls with the same
arguments yield the identical list by definition. -/
def build_ethernet_resources (ip : String) (port : Nat) : List String :=
  if port = 0 ∨ port = 1861 ∨ port = 5025 then
    let p : Nat := if port = 0 ∨ port = 5025 then 5025 else 1861
    [s!"TCPIP::{ip}::inst0::INSTR", s!"TCPIP::{ip}::hislip0::INSTR",
      s!"TCPIP::{ip}::{p}::SOCKET"]
  else
    [s!"TCPIP::{ip}::inst0::INSTR", s!"TCPIP::{ip}::hislip0::INSTR",
      s!"TCPIP::{ip}::{port}::SOCKET"]

/-- The raw-socket port the claim describes: an explicitly given port
wins, otherwise the default SCPI raw port 5025.  (Stated from the spec
side, to be compared with the code's branching.) -/
def resolvePort (port : Nat) : Nat := if port = 0 then 5025 else port

/-! ### Claim C8 -/

/-- C8: for every network target the candidate list is exactly the two
structured-session forms (VXI-11 inst0 first, then HiSLIP hislip0)
followed by exactly one raw-socket form on the resolved port, where an
explicit port wins and port 0 defaults to the well-known SCPI raw port
5025.  As a pure function of (ip, port), repeated calls are identical. -/
theorem build_ethernet_resources_spec (ip : String) (port q : Nat)
    (hq : q = resolvePort port) :
    build_ethernet_resources ip port =
      [s!"TCPIP::{ip}::inst0::INSTR", s!"TCPIP::{ip}::hislip0::INSTR",
        s!"TCPIP::{ip}::{q}::SOCKET"] := by
  subst hq
  unfold build_ethernet_resources resolvePort
  split
  · have hp : (if port = 0 ∨ port = 5025 then (5025 : Nat) else 1861) =
        if port = 0 then 5025 else port := by
      split <;> split <;> omega
    rw [hp]
  · have hp : (if port = 0 then (5025 : Nat) else port) = port := by
      rw [if_neg]
      omega
    rw [hp]

/-- Witness for C8: the scenario target 10.0.0.5 with auto port 0. -/
theorem build_ethernet_resources_spec_witness :
    build_ethernet_resources "10.0.0.5" 0 =
      ["TCPIP::10.0.0.5::inst0::INSTR", "TCPIP::10.0.0.5::hislip0::INSTR",
        "TCPIP::10.0.0.5::5025::SOCKET"] := by
  have h := build_ethernet_resources_spec "10.0.0.5" 0 5025 (by decide)
  rw [h]
  rfl

/-! ## Capture orchestration (lecroy_capture.py, scpi_capture and vicp_capture)

Instrument I/O is abstracted: the bytes the remote answers and whether a
nested call raises are parameters; everything else follows the source
control flow. -/

/-- Python whitespace stripped by str.strip (ASCII range). -/
def isPySpace (c : Char) : Bool :=
  c == ' ' || c == '\t' || c == '\n' || c == '\r' || c == '\x0b' || c == '\x0c'

/-- Python str.strip on an ASCII string. -/
def pyStrip (s : String) : String :=
  String.mk (((s.data.dropWhile isPySpace).reverse.dropWhile isPySpace).reverse)

/-- bytes.decode("ascii", errors="replace"): bytes above 127 become the
replacement character. -/
def decodeReplace (l : List Nat) : String :=
  String.mk (l.map (fun b => if b < 128 then Char.ofNat b else '�'))

/-- The color argument actually used: DISPLAY_COLOR.upper() when it is
WHITE or BLACK, otherwise WHITE (lines 318 and 479). -/
def coerceColor (displayColor : String) : String :=
  if pyUpper displayColor == "WHITE" || pyUpper displayColor == "BLACK" then
    pyUpper displayColor
  else "WHITE"

/-- The port _dump_lecroy_vicp_raw connects to (line 459). -/
def vicpRawPort : Nat := 1861

/-- The commands _dump_lecroy_vicp_raw sends over the raw VICP socket
(lines 462-464): the HCSU hardcopy configuration, then the SCREEN_DUMP
trigger.  vicp_capture sends the same two commands (lines 504-506). -/
def vicpRawCommands (color : String) : List String :=
  [s!"HCSU DEV,BMP,FORMAT,PORTRAIT,BCKG,{color},DEST,REMOTE,PORT,NET", "SCREEN_DUMP"]

/-- Outcome of the native-VICP capture path. -/
structure VicpOutcome where
  success : Bool
  cmdsAfterIdn : List String

/-- vicp_capture (lines 472-524): send *IDN?, receive and decode the
identity (idnBytes is what _vicp_recv returned), detect the vendor; a
non-LeCroy vendor returns False at once; otherwise send HCSU and
SCREEN_DUMP, receive the image (imageData), and succeed iff it passes
validation.  cmdsAfterIdn records the commands sent after the identity
exchange. -/
def vicp_capture (displayColor : String) (idnBytes imageData : List Nat) :
    VicpOutcome :=
  let idn := pyStrip (decodeReplace idnBytes)
  let vendor := detect_vendor idn
  if vendor ≠ "LECROY" then ⟨false, []⟩
  else
    ⟨image_valid (some imageData), vicpRawCommands (coerceColor displayColor)⟩

/-- Outcome of scpi_capture after the screen dump returned. -/
structure ScpiOutcome where
  success : Bool
  downgraded : Bool
  downgradeHost : Option String
  downgradeCmds : List String

/-- The validation-and-fallback tail of scpi_capture (lines 312-340):
if the dumped image passes validation, succeed; otherwise, when the
detected vendor is LECROY and the resource string contains TCPIP::
(upper-cased), close the session and run _dump_lecroy_vicp_raw against
the host extracted as resource.split("::")[1]; that downgrade raising
(error) fails, and its returned data succeeds iff it passes validation.  Any
other vendor or resource simply fails. -/
def scpi_after_dump (displayColor vendor resource : String)
    (image : Option (List Nat)) (downgrade : Except Unit (List Nat)) :
    ScpiOutcome :=
  if image_valid image then ⟨true, false, none, []⟩
  else if vendor == "LECROY" && inStr "TCPIP::" (pyUpper resource) then
    let host := (resource.splitOn "::").getD 1 ""
    let cmds := vicpRawCommands (coerceColor displayColor)
    match downgrade with
    | Except.error _ => ⟨false, true, some host, cmds⟩
    | Except.ok d => ⟨image_valid (some d), true, some host, cmds⟩
  else ⟨false, false, none, []⟩

/-! ### Claim C10 -/

/-- C10: in the native-VICP path, if the *IDN? answer does not identify
a LeCroy instrument, vicp_capture returns failure without sending any
HCSU or SCREEN_DUMP command over the socket. -/
theorem vicp_capture_non_lecroy (displayColor : String)
    (idnBytes imageData : List Nat)
    (h : detect_vendor (pyStrip (decodeReplace idnBytes)) ≠ "LECROY") :
    (vicp_capture displayColor idnBytes imageData).success = false ∧
    (vicp_capture displayColor idnBytes imageData).cmdsAfterIdn = [] := by
  unfold vicp_capture
  rw [if_pos h]
  exact ⟨rfl, rfl⟩

/-- Witness for C10: a Tektronix identity over the VICP socket yields
failure and no further commands. -/
theorem vicp_capture_non_lecroy_witness :
    (vicp_capture "WHITE" (asciiEncode "TEKTRONIX,TDS2024B,SN1,FW1")
      (List.replicate 200 1)).success = false ∧
    (vicp_capture "WHITE" (asciiEncode "TEKTRONIX,TDS2024B,SN1,FW1")
      (List.replicate 200 1)).cmdsAfterIdn = [] :=
  vicp_capture_non_lecroy "WHITE" (asciiEncode "TEKTRONIX,TDS2024B,SN1,FW1")
    (List.replicate 200 1) (by decide)

/-! ### Claim C3 -/

/-- C3: when the detected vendor is LECROY, the resource is a TCPIP
network resource, and the structured-session image fails validation,
scpi_capture does not simply fail: it attempts the raw-VICP downgrade
against the host taken from the resource string (on port 1861, issuing
the HCSU configuration and the SCREEN_DUMP trigger), succeeds exactly
when the downgrade returns a buffer passing validation, and fails only
when the downgrade raises or returns an empty or too-small image. -/
theorem scpi_lecroy_downgrade_spec (displayColor resource : String)
    (image : Option (List Nat)) (downgrade : Except Unit (List Nat))
    (hres : inStr "TCPIP::" (pyUpper resource) = true)
    (hbad : image_valid image = false) :
    (scpi_after_dump displayColor "LECROY" resource image downgrade).downgraded = true ∧
    (scpi_after_dump displayColor "LECROY" resource image downgrade).downgradeHost =
      some ((resource.splitOn "::").getD 1 "") ∧
    (scpi_after_dump displayColor "LECROY" resource image downgrade).downgradeCmds =
      vicpRawCommands (coerceColor displayColor) ∧
    "SCREEN_DUMP" ∈
      (scpi_after_dump displayColor "LECROY" resource image downgrade).downgradeCmds ∧
    vicpRawPort = 1861 ∧
    ((scpi_after_dump displayColor "LECROY" resource image downgrade).success = true ↔
      ∃ d, downgrade = Except.ok d ∧ image_valid (some d) = true) := by
  unfold scpi_after_dump
  rw [if_neg (by rw [hbad]; exact Bool.false_ne_true)]
  have hguard : (("LECROY" == "LECROY") && inStr "TCPIP::" (pyUpper resource)) = true := by
    rw [hres]
    rfl
  rw [if_pos hguard]
  cases downgrade with
  | error e =>
      refine ⟨rfl, rfl, rfl, by simp [vicpRawCommands], rfl, ?_⟩
      constructor
      · intro h
        exact absurd h Bool.false_ne_true
      · rintro ⟨d, hd, _⟩
        exact absurd hd (by simp)
  | ok d =>
      refine ⟨rfl, rfl, rfl, by simp [vicpRawCommands], rfl, ?_⟩
      constructor
      · intro h
        exact ⟨d, rfl, h⟩
      · rintro ⟨d2, hd, hv⟩
        injection hd with hd
        subst hd
        exact hv

/-- Witness for C3: the spec scenario - host 10.0.0.5, structured VXI-11
resource, a 40-byte structured-session image (below threshold), and a
200-byte raw-VICP downgrade result. -/
theorem scpi_lecroy_downgrade_spec_witness :
    (scpi_after_dump "WHITE" "LECROY" "TCPIP::10.0.0.5::inst0::INSTR"
        (some (List.replicate 40 0)) (Except.ok (List.replicate 200 1))).downgraded = true ∧
    (scpi_after_dump "WHITE" "LECROY" "TCPIP::10.0.0.5::inst0::INSTR"
        (some (List.replicate 40 0)) (Except.ok (List.replicate 200 1))).downgradeHost =
      some (("TCPIP::10.0.0.5::inst0::INSTR".splitOn "::").getD 1 "") ∧
    (scpi_after_dump "WHITE" "LECROY" "TCPIP::10.0.0.5::inst0::INSTR"
        (some (List.replicate 40 0)) (Except.ok (List.replicate 200 1))).downgradeCmds =
      vicpRawCommands (coerceColor "WHITE") ∧
    "SCREEN_DUMP" ∈
      (scpi_after_dump "WHITE" "LECROY" "TCPIP::10.0.0.5::inst0::INSTR"
        (some (List.replicate 40 0)) (Except.ok (List.replicate 200 1))).downgradeCmds ∧
    vicpRawPort = 1861 ∧
    ((scpi_after_dump "WHITE" "LECROY" "TCPIP::10.0.0.5::inst0::INSTR"
        (some (List.replicate 40 0)) (Except.ok (List.replicate 200 1))).success = true ↔
      ∃ d, (Except.ok (List.replicate 200 (1 : Nat)) : Except Unit (List Nat)) =
          Except.ok d ∧ image_valid (some d) = true) := by
  have h := scpi_lecroy_downgrade_spec "WHITE" "TCPIP::10.0.0.5::inst0::INSTR"
    (some (List.replicate 40 0)) (Except.ok (List.replicate 200 1))
    (by decide) (by decide)
  exact ⟨h.1, h.2.1, h.2.2.1, h.2.2.2.1, h.2.2.2.2.1, h.2.2.2.2.2⟩

/-! ## Image finalizer (lecroy_capture.py, _strip_ieee_block)

The helper needs faithful models of three Python primitives used on
bytes: slicing (negative and out-of-range indices clamp), int() of a
one-character string (only an ASCII digit succeeds), and int() of a
bytes object (ASCII whitespace is stripped, an optional sign is allowed,
and single underscores may separate digits). -/

/-- Normalise one Python slice index for a sequence of length n. -/
def pyIndex (n : Nat) (i : Int) : Nat :=
  if i < 0 then (i + n).toNat else min i.toNat n

/-- Python l[a:b] (step 1). -/
def pySlice (l : List Nat) (a b : Int) : List Nat :=
  (l.take (pyIndex l.length b)).drop (pyIndex l.length a)

/-- int(chr(b)) for a byte b: succeeds exactly on ASCII digits. -/
def digitVal (b : Nat) : Option Nat :=
  if 48 ≤ b ∧ b ≤ 57 then some (b - 48) else none

/-- ASCII whitespace bytes stripped by int() of bytes. -/
def isSpaceByte (b : Nat) : Bool :=
  b == 9 || b == 10 || b == 11 || b == 12 || b == 13 || b == 32

/-- Digits continuing an integer literal: a single underscore may sit
between digits, as Python int() accepts. -/
def parseDigitsRest : List Nat → Nat → Option Nat
  | [], acc => some acc
  | b :: rest, acc =>
      if b == 95 then
        match rest with
        | [] => none
        | b2 :: rest2 =>
            match digitVal b2 with
            | some d => parseDigitsRest rest2 (acc * 10 + d)
            | none => none
      else
        match digitVal b with
        | some d => parseDigitsRest rest (acc * 10 + d)
        | none => none

/-- A non-empty unsigned digit sequence. -/
def parseUnsigned : List Nat → Option Nat
  | [] => none
  | b :: rest =>
      match digitVal b with
      | some d => parseDigitsRest rest d
      | none => none

/-- The sign-then-digits part of int() of bytes, after whitespace
stripping: an optional single leading sign, then the digits; none models
ValueError. -/
def pyIntCore : List Nat → Option Int
  | [] => none
  | b :: rest =>
      if b == 43 then (parseUnsigned rest).map (fun n => (n : Int))
      else if b == 45 then (parseUnsigned rest).map (fun n => -(n : Int))
      else (parseUnsigned (b :: rest)).map (fun n => (n : Int))

/-- int() of a bytes object: strip ASCII whitespace from both ends, then
parse sign and digits. -/
def pyIntOfBytes (l : List Nat) : Option Int :=
  pyIntCore (((l.dropWhile isSpaceByte).reverse.dropWhile isSpaceByte).reverse)

/-- _strip_ieee_block (lines 607-616): if the buffer starts with the
IEEE block marker, read the one-digit length-of-length, parse that many
following bytes as the byte count, and slice out that many bytes; any
exception inside the try block (missing second byte, non-digit field,
unparsable count) returns the buffer unchanged. -/
def strip_ieee_block (data : List Nat) : List Nat :=
  match data with
  | b0 :: b1 :: _ =>
      if b0 == 35 then
        match digitVal b1 with
        | none => data
        | some n =>
            match pyIntOfBytes (pySlice data 2 (2 + (n : Int))) with
            | none => data
            | some count => pySlice data (2 + (n : Int)) (2 + (n : Int) + count)
      else data
  | _ => data

/-- Decimal value of an ASCII digit string. -/
def decimalVal (ds : List Nat) : Nat :=
  ds.foldl (fun a d => a * 10 + (d - 48)) 0

/-! ### Claim C7 -/

set_option maxRecDepth 10000

/-- Counterexample to C7: the input "#35" (bytes [35,51,53]) begins with
the marker and a one-digit length-of-length field of 3, but is not
followed by 3 ASCII digits, so by the claim it should be returned
unchanged; the code instead parses the clamped slice b"5" as the count 5
and returns the empty slice - not the input. -/
theorem strip_ieee_block_truncated_field :
    strip_ieee_block [35, 51, 53] = [] ∧ ([35, 51, 53] : List Nat) ≠ [] := by
  decide

lemma dropWhile_all_neg (p : Nat → Bool) (l : List Nat)
    (h : ∀ x ∈ l, p x = false) : l.dropWhile p = l := by
  cases l with
  | nil => rfl
  | cons b t =>
      rw [List.dropWhile_cons, h b (List.mem_cons_self b t)]
      rw [if_neg (by simp)]

lemma parseDigitsRest_digits (t : List Nat) (acc : Nat)
    (hdig : ∀ d ∈ t, 48 ≤ d ∧ d ≤ 57) :
    parseDigitsRest t acc = some (t.foldl (fun a d => a * 10 + (d - 48)) acc) := by
  induction t generalizing acc with
  | nil => rfl
  | cons b t ih =>
      obtain ⟨hb1, hb2⟩ := hdig b (List.mem_cons_self b t)
      have h95 : (b == 95) = false := by
        simp only [beq_eq_false_iff_ne, ne_eq]
        omega
      have hdv : digitVal b = some (b - 48) := by
        unfold digitVal
        rw [if_pos ⟨hb1, hb2⟩]
      cases t with
      | nil =>
          simp [parseDigitsRest, h95, hdv]
      | cons b2 t2 =>
          simp only [parseDigitsRest, h95, Bool.false_eq_true, if_false, hdv]
          rw [ih (acc * 10 + (b - 48)) (fun d hd => hdig d (List.mem_cons_of_mem b hd))]
          simp [List.foldl_cons]

lemma pyIntOfBytes_digits (b : Nat) (t : List Nat)
    (hdig : ∀ d ∈ b :: t, 48 ≤ d ∧ d ≤ 57) :
    pyIntOfBytes (b :: t) = some ((decimalVal (b :: t) : Nat) : Int) := by
  have hw : ∀ x ∈ b :: t, isSpaceByte x = false := by
    intro x hx
    obtain ⟨hx1, hx2⟩ := hdig x hx
    simp only [isSpaceByte, Bool.or_eq_false_iff, beq_eq_false_iff_ne, ne_eq]
    omega
  have h1 : (b :: t).dropWhile isSpaceByte = b :: t := dropWhile_all_neg _ _ hw
  have h2 : (b :: t).reverse.dropWhile isSpaceByte = (b :: t).reverse :=
    dropWhile_all_neg _ _ (fun x hx => hw x (List.mem_reverse.mp hx))
  obtain ⟨hb1, hb2⟩ := hdig b (List.mem_cons_self b t)
  have h43 : (b == 43) = false := by
    simp only [beq_eq_false_iff_ne, ne_eq]
    omega
  have h45 : (b == 45) = false := by
    simp only [beq_eq_false_iff_ne, ne_eq]
    omega
  have hdv : digitVal b = some (b - 48) := by
    unfold digitVal
    rw [if_pos ⟨hb1, hb2⟩]
  have hPU : parseUnsigned (b :: t) = parseDigitsRest t (b - 48) := by
    simp only [parseUnsigned, hdv]
  unfold pyIntOfBytes
  rw [h1, h2, List.reverse_reverse]
  simp only [pyIntCore, h43, h45, Bool.false_eq_true, if_false]
  rw [hPU, parseDigitsRest_digits t (b - 48) (fun d hd => hdig d (List.mem_cons_of_mem b hd))]
  simp [decimalVal, List.foldl_cons]

lemma pyIndex_ofNat (n a : Nat) : pyIndex n (a : Int) = min a n := by
  unfold pyIndex
  split <;> omega

lemma pySlice_natBounds (l : List Nat) (a b : Nat) :
    pySlice l (a : Int) (b : Int) = (l.take b).drop a := by
  unfold pySlice
  rw [pyIndex_ofNat, pyIndex_ofNat]
  have h1 : l.take (min b l.length) = l.take b := by
    rcases Nat.le_total b l.length with h | h
    · rw [Nat.min_eq_left h]
    · rw [Nat.min_eq_right h, List.take_length, List.take_of_length_le h]
  rcases Nat.le_total a l.length with h | h
  · rw [Nat.min_eq_left h, h1]
  · rw [Nat.min_eq_right h, h1]
    rw [List.drop_eq_nil_of_le, List.drop_eq_nil_of_le]
    · exact le_trans (by simp) h
    · exact le_trans (by simp) (le_refl l.length)

/-- C7 (amended): strip returns its input unchanged when the input does
not begin with the marker byte; for a marker followed by a one-digit
length-of-length, that many ASCII digits encoding a count k, and at
least k further bytes, it returns exactly those k bytes; and it returns
the input unchanged whenever the extraction raises (non-digit
length-of-length field, or a byte-count field int() cannot parse) -
never a fatal error.  (On malformed envelopes where extraction still
succeeds, e.g. a truncated digit field, the code returns the sliced
bytes, not the input - see the counterexample.) -/
theorem strip_ieee_block_spec :
    (∀ data : List Nat, data.head? ≠ some 35 → strip_ieee_block data = data) ∧
    (∀ (b1 : Nat) (ds rest : List Nat),
      48 ≤ b1 → b1 ≤ 57 → ds.length = b1 - 48 → ds ≠ [] →
      (∀ d ∈ ds, 48 ≤ d ∧ d ≤ 57) →
      decimalVal ds ≤ rest.length →
      strip_ieee_block (35 :: b1 :: (ds ++ rest)) = rest.take (decimalVal ds) ∧
      (rest.take (decimalVal ds)).length = decimalVal ds) ∧
    (∀ (b1 : Nat) (rest : List Nat), digitVal b1 = none →
      strip_ieee_block (35 :: b1 :: rest) = 35 :: b1 :: rest) ∧
    (∀ (b1 n : Nat) (rest : List Nat), digitVal b1 = some n →
      pyIntOfBytes (pySlice (35 :: b1 :: rest) 2 (2 + (n : Int))) = none →
      strip_ieee_block (35 :: b1 :: rest) = 35 :: b1 :: rest) := by
  refine ⟨?_, ?_, ?_, ?_⟩
  · intro data h
    rcases data with _ | ⟨b0, _ | ⟨b1, t⟩⟩
    · rfl
    · rfl
    · have hb0 : b0 ≠ 35 := by
        intro hc
        exact h (by rw [hc]; rfl)
      have hb : (b0 == 35) = false := by simp [hb0]
      simp [strip_ieee_block, hb]
  · intro b1 ds rest h48 h57 hlen hne hdig hcnt
    have hdv : digitVal b1 = some (b1 - 48) := by
      unfold digitVal
      rw [if_pos ⟨h48, h57⟩]
    have hn : b1 - 48 = ds.length := hlen.symm
    refine ⟨?_, by simp only [List.length_take]; omega⟩
    have hslice1 : pySlice (35 :: b1 :: (ds ++ rest)) 2 (2 + ((ds.length : Nat) : Int)) = ds := by
      rw [show (2 : Int) + ((ds.length : Nat) : Int) = (((2 + ds.length : Nat)) : Int) from by
        push_cast; ring]
      rw [show (2 : Int) = ((2 : Nat) : Int) from rfl]
      rw [pySlice_natBounds]
      rw [show (2 + ds.length) = Nat.succ (Nat.succ ds.length) from by omega]
      simp only [List.take_succ_cons, List.drop_succ_cons, List.drop_zero]
      exact List.take_left ds rest
    have hint : pyIntOfBytes ds = some ((decimalVal ds : Nat) : Int) := by
      cases ds with
      | nil => exact absurd rfl hne
      | cons d0 ds2 => exact pyIntOfBytes_digits d0 ds2 hdig
    have hslice2 : pySlice (35 :: b1 :: (ds ++ rest))
        (2 + ((ds.length : Nat) : Int))
        (2 + ((ds.length : Nat) : Int) + ((decimalVal ds : Nat) : Int)) =
        rest.take (decimalVal ds) := by
      rw [show (2 : Int) + ((ds.length : Nat) : Int) + ((decimalVal ds : Nat) : Int) =
          (((2 + ds.length + decimalVal ds : Nat)) : Int) from by push_cast; ring]
      rw [show (2 : Int) + ((ds.length : Nat) : Int) = (((2 + ds.length : Nat)) : Int) from by
        push_cast; ring]
      rw [pySlice_natBounds]
      rw [show (2 + ds.length + decimalVal ds) =
          Nat.succ (Nat.succ (ds.length + decimalVal ds)) from by omega]
      rw [show (2 + ds.length) = Nat.succ (Nat.succ ds.length) from by omega]
      simp only [List.take_succ_cons, List.drop_succ_cons]
      rw [List.take_append (decimalVal ds), List.drop_left]
    simp only [strip_ieee_block, hdv]
    rw [show ((35 : Nat) == 35) = true from rfl]
    simp only [if_true]
    rw [hn, hslice1, hint]
    exact hslice2
  · intro b1 rest h
    simp [strip_ieee_block, h]
  · intro b1 n rest h hnone
    simp [strip_ieee_block, h, hnone]

/-- Witness for C7 (amended): the spec example envelope #3120 followed
by 120 payload bytes strips to exactly those 120 bytes; and a non-digit
length-of-length field is returned unchanged. -/
theorem strip_ieee_block_spec_witness :
    (strip_ieee_block (35 :: 51 :: ([49, 50, 48] ++ List.replicate 120 7)) =
      (List.replicate 120 7).take (decimalVal [49, 50, 48]) ∧
      ((List.replicate 120 7).take (decimalVal [49, 50, 48])).length =
        decimalVal [49, 50, 48]) ∧
    strip_ieee_block [120, 121, 122] = [120, 121, 122] ∧
    strip_ieee_block [35, 65, 66, 67] = [35, 65, 66, 67] :=
  ⟨strip_ieee_block_spec.2.1 51 [49, 50, 48] (List.replicate 120 7)
      (by decide) (by decide) (by decide) (by decide) (by decide) (by decide),
    strip_ieee_block_spec.1 [120, 121, 122] (by decide),
    strip_ieee_block_spec.2.2.1 65 [66, 67] (by decide)⟩
